import Mathlib

/-!
Verification of the `testlog` crate: a single macro `test_log!` that expands,
at every call site, to `if cfg!(test) { eprintln!(...) }`.  The embedding
models the Rust format machinery for positional `\x7b\x7d` placeholders, the
process output streams, and the macro expansion with the compile-time
`cfg!(test)` flag as a per-compilation-unit boolean parameter.  Argument
expressions are embedded as state transformers so that evaluation (and
non-evaluation) of their side effects is observable.
-/

namespace Testlog

/-- One step of Rust format-string interpretation, as used by `eprintln!`:
`\x7b\x7b` and `\x7d\x7d` are escapes for literal braces, `\x7b\x7d` consumes
the next positional argument (its `Display` rendering), and every other
character is copied verbatim. -/
def formatCore : List Char → List String → List Char
  | [], _ => []
  | [c], _ => [c]
  | c :: d :: rest, args =>
    if c = '\x7b' ∧ d = '\x7b' then '\x7b' :: formatCore rest args
    else if c = '\x7d' ∧ d = '\x7d' then '\x7d' :: formatCore rest args
    else if c = '\x7b' ∧ d = '\x7d' then
      match args with
      | [] => formatCore rest []
      | a :: as => a.data ++ formatCore rest as
    else c :: formatCore (d :: rest) args

/-- Rust formatting of a template string with the `Display` renderings of the
positional arguments, producing the character stream of the result. -/
def formatTemplate (t : String) (args : List String) : List Char :=
  formatCore t.data args

/-- An argument expression of the macro: an effectful computation over an
ambient program state `σ` producing the `Display` rendering of its value. -/
abbrev Eff (σ α : Type) := σ → α × σ

/-- Left-to-right evaluation of the argument expressions of one `eprintln!`
call, threading the ambient program state. -/
def evalArgs {σ : Type} : List (Eff σ String) → Eff σ (List String)
  | [] => fun s => ([], s)
  | a :: as => fun s =>
    let p := a s
    let q := evalArgs as p.2
    (p.1 :: q.1, q.2)

/-- The observable process state: the ambient program state plus the two
standard output streams, as character streams. -/
structure World (σ : Type) where
  env : σ
  stdout : List Char
  stderr : List Char
deriving DecidableEq

/-- The host primitive `eprintln!` writes its already-formatted line, followed
by a newline, to standard error and touches nothing else. -/
def eprintln {σ : Type} (line : List Char) (w : World σ) : World σ :=
  { w with stderr := w.stderr ++ line ++ ['\n'] }

/-- The expansion of `test_log!`: `if cfg!(test) \x7b eprintln!(...) \x7d`.
`cfgTest` is the compile-time `cfg!(test)` flag of the compilation unit that
contains the call site.  When it is true the argument expressions are
evaluated left to right and the formatted line goes to standard error; when it
is false the branch body never runs. -/
def test_log {σ : Type} (cfgTest : Bool) (t : String) (args : List (Eff σ String))
    (w : World σ) : World σ :=
  if cfgTest then
    let p := evalArgs args w.env
    eprintln (formatTemplate t p.1) { w with env := p.2 }
  else w

/-- The characters a single invocation appends to standard error. -/
def emitted {σ : Type} (cfgTest : Bool) (t : String) (args : List (Eff σ String))
    (w : World σ) : List Char :=
  (test_log cfgTest t args w).stderr.drop w.stderr.length

/-- A pure argument: an `Eff` with a constant value and no state effect. -/
def pureArg {σ : Type} (v : String) : Eff σ String := fun s => (v, s)

/-- A statement of a host program: either a `test_log!` call site or any other
state transformation (which does not itself invoke the macro). -/
inductive Stmt (σ : Type) where
  | log (t : String) (args : List (Eff σ String))
  | other (f : World σ → World σ)

/-- Running one statement under the compilation unit flag `cfgTest`. -/
def runStmt {σ : Type} (cfgTest : Bool) : Stmt σ → World σ → World σ
  | Stmt.log t args, w => test_log cfgTest t args w
  | Stmt.other f, w => f w

/-- Running a program, a sequence of statements, under the unit flag. -/
def runProg {σ : Type} (cfgTest : Bool) : List (Stmt σ) → World σ → World σ
  | [], w => w
  | s :: p, w => runProg cfgTest p (runStmt cfgTest s w)

/-- The same program with every `test_log!` call site deleted from the source. -/
def removeLogs {σ : Type} : List (Stmt σ) → List (Stmt σ)
  | [] => []
  | Stmt.log _ _ :: p => removeLogs p
  | Stmt.other f :: p => Stmt.other f :: removeLogs p

/-- The expansion of `test_log!` with the host error-write primitive left
abstract, so that any failure behavior of the primitive (including a full or
closed stderr descriptor, modelled by the error type `ε`) can be observed.
The expansion itself is the same `if cfg!(test)` branch around one call of the
primitive. -/
def test_logW {σ ε : Type} (cfgTest : Bool)
    (write : List Char → World σ → Except ε (World σ)) (t : String)
    (args : List (Eff σ String)) (w : World σ) : Except ε (World σ) :=
  if cfgTest then
    let p := evalArgs args w.env
    write (formatTemplate t p.1) { w with env := p.2 }
  else Except.ok w

/-- The value of `cfg!(test)` observed by each `test_log!` call site of a
program, in execution order.  The flag is a compile-time constant of the
compilation unit, so it is a parameter here, not part of the mutable state. -/
def observedFlags {σ : Type} (cfgTest : Bool) : List (Stmt σ) → List Bool
  | [] => []
  | Stmt.log _ _ :: p => cfgTest :: observedFlags cfgTest p
  | Stmt.other _ :: p => observedFlags cfgTest p

/-- Observable events of a test run: a line emitted to standard error, or the
test failing with a panic message. -/
inductive Event where
  | emit (line : List Char)
  | fail (msg : String)
deriving DecidableEq

/-- A statement of a test body: a `test_log!` call site or a panic. -/
inductive TStmt (σ : Type) where
  | log (t : String) (args : List (Eff σ String))
  | fail (msg : String)

/-- The event trace of a test body: each enabled `test_log!` emits its line as
it is executed, and a panic ends the run with a failure event. -/
def runTrace {σ : Type} (cfgTest : Bool) : List (TStmt σ) → σ → List Event
  | [], _ => []
  | TStmt.log t args :: p, s =>
    if cfgTest then
      let q := evalArgs args s
      Event.emit (formatTemplate t q.1) :: runTrace cfgTest p q.2
    else runTrace cfgTest p s
  | TStmt.fail m :: _, _ => [Event.fail m]

/-- The test `failing_test_shows_debug_output` from the crate: three
`test_log!` calls followed by a deliberate panic. -/
def failingTestBody {σ : Type} : List (TStmt σ) :=
  [ TStmt.log "This debug message appears before the test fails" [],
    TStmt.log "Processing important data: \x7b\x7d" [pureArg "123"],
    TStmt.log "About to panic - this helps debug the failure" [],
    TStmt.fail "Intentional panic to show test_log output" ]

/-- Argument expressions over an event-log state: the expression for the
value at position `i` records the index `k + i` in the log when (and only
when) it is evaluated, so evaluation count and order are observable. -/
def mkTraced : List String → Nat → List (Eff (List Nat) String)
  | [], _ => []
  | v :: vs, k => (fun s => (v, s ++ [k])) :: mkTraced vs (k + 1)

/-- A template built from literal segments with one positional placeholder
between each pair of adjacent segments. -/
def buildTemplate : List (List Char) → List Char
  | [] => []
  | [s] => s
  | s :: ss => s ++ '\x7b' :: '\x7d' :: buildTemplate ss

/-- The segments interleaved with the argument values: value `i` standing
exactly where placeholder `i` occurs. -/
def interleave : List (List Char) → List String → List Char
  | [s], [] => s
  | s :: ss, v :: vs => s ++ v.data ++ interleave ss vs
  | _, _ => []

theorem test_log_false {σ : Type} (t : String) (args : List (Eff σ String))
    (w : World σ) : test_log false t args w = w := rfl

theorem test_log_true {σ : Type} (t : String) (args : List (Eff σ String))
    (w : World σ) :
    test_log true t args w
      = { env := (evalArgs args w.env).2, stdout := w.stdout,
          stderr := w.stderr ++ formatTemplate t (evalArgs args w.env).1 ++ ['\n'] } := rfl

theorem emitted_true {σ : Type} (t : String) (args : List (Eff σ String))
    (w : World σ) :
    emitted true t args w = formatTemplate t (evalArgs args w.env).1 ++ ['\n'] := by
  simp [emitted, test_log_true]

theorem emitted_false {σ : Type} (t : String) (args : List (Eff σ String))
    (w : World σ) : emitted false t args w = [] := by
  simp [emitted, test_log_false]

/-- C1: in a unit compiled with the test-mode flag, one invocation appends to
standard error exactly the formatted template followed by a line terminator
and leaves standard output alone; without the flag it produces no output on
either stream (indeed no change at all). -/
theorem mode_gating :
    ∀ (σ : Type) (t : String) (args : List (Eff σ String)) (w : World σ),
      (test_log true t args w).stderr
          = w.stderr ++ formatTemplate t (evalArgs args w.env).1 ++ ['\n']
        ∧ (test_log true t args w).stdout = w.stdout
        ∧ (test_log false t args w).stderr = w.stderr
        ∧ (test_log false t args w).stdout = w.stdout := by
  intro σ t args w
  refine ⟨?_, ?_, ?_, ?_⟩ <;> simp [test_log_true, test_log_false]

/-- C2: under a non-test build an invocation is a no-op, so a program with the
call sites present is observationally equivalent to the same program with
every call site removed. -/
theorem disabled_call_sites_equiv :
    ∀ (σ : Type) (p : List (Stmt σ)) (w : World σ),
      test_log false "" [] w = w ∧ runProg false p w = runProg false (removeLogs p) w := by
  intro σ p w
  refine ⟨rfl, ?_⟩
  induction p generalizing w with
  | nil => rfl
  | cons s p ih =>
    cases s with
    | log t args => simpa [runProg, removeLogs, runStmt, test_log_false] using ih w
    | other f => simp [runProg, removeLogs, runStmt, ih]

/-- C3: in test mode the emitted line is exactly the host formatter's output
for the template and values; in particular the template with one placeholder
and value 5 yields the line with 5 substituted, and the two-placeholder
template with 42 and a string yields both substituted in order. -/
theorem formatting_fidelity :
    (∀ (σ : Type) (t : String) (args : List (Eff σ String)) (w : World σ),
        emitted true t args w = formatTemplate t (evalArgs args w.env).1 ++ ['\n'])
      ∧ formatTemplate "Debug info: \x7b\x7d" ["5"] = ("Debug info: 5").data
      ∧ (test_log true "Debug info: \x7b\x7d" [pureArg "5"]
            (World.mk () [] [])).stderr = ("Debug info: 5").data ++ ['\n']
      ∧ formatTemplate "Multiple values: \x7b\x7d and \x7b\x7d" ["42", "test"]
          = ("Multiple values: 42 and test").data
      ∧ (test_log true "Multiple values: \x7b\x7d and \x7b\x7d"
            [pureArg "42", pureArg "test"] (World.mk () [] [])).stderr
          = ("Multiple values: 42 and test").data ++ ['\n'] := by
  refine ⟨fun σ t args w => emitted_true t args w, by decide, by decide, by decide, by decide⟩

theorem evalArgs_pure {σ : Type} (args : List (Eff σ String))
    (h : ∀ a ∈ args, ∀ s, (a s).2 = s) (s : σ) : (evalArgs args s).2 = s := by
  induction args generalizing s with
  | nil => rfl
  | cons a as ih =>
    calc (evalArgs (a :: as) s).2
        = (evalArgs as (a s).2).2 := rfl
      _ = (a s).2 := ih (fun b hb => h b (List.mem_cons_of_mem _ hb)) (a s).2
      _ = s := h a (List.mem_cons_self _ _) s

/-- C4: the construct adds no error handling of its own around the write.
For an arbitrary behavior of the host error-write primitive, including any
failure, the outcome of an enabled invocation is exactly the primitive's
outcome on the formatted line; a disabled invocation never touches the
primitive; and with the infallible `eprintln` primitive the construct is the
plain `test_log` semantics. -/
theorem no_added_error_handling :
    ∀ (σ ε : Type) (write : List Char → World σ → Except ε (World σ))
      (t : String) (args : List (Eff σ String)) (w : World σ),
      test_logW true write t args w
          = write (formatTemplate t (evalArgs args w.env).1)
              { env := (evalArgs args w.env).2, stdout := w.stdout, stderr := w.stderr }
        ∧ test_logW false write t args w = Except.ok w
        ∧ test_logW true
            (fun line v => (Except.ok (eprintln line v) : Except ε (World σ)))
            t args w = Except.ok (test_log true t args w) := by
  intro σ ε write t args w
  exact ⟨rfl, rfl, rfl⟩

/-- C5: standard output is never touched in either mode; when the argument
expressions are themselves effect-free, the ambient program state is also
untouched, the disabled invocation changes nothing at all, and standard error
changes only in test mode. -/
theorem only_stderr_effect :
    ∀ (σ : Type) (cfgTest : Bool) (t : String) (args : List (Eff σ String))
      (w : World σ), (∀ a ∈ args, ∀ s, (a s).2 = s) →
      (test_log cfgTest t args w).stdout = w.stdout
        ∧ (test_log cfgTest t args w).env = w.env
        ∧ (cfgTest = false → test_log cfgTest t args w = w)
        ∧ ((test_log cfgTest t args w).stderr = w.stderr ∨ cfgTest = true) := by
  intro σ cfgTest t args w h
  cases cfgTest with
  | false => exact ⟨rfl, rfl, fun _ => rfl, Or.inl rfl⟩
  | true =>
    refine ⟨rfl, evalArgs_pure args h w.env, ?_, Or.inr rfl⟩
    intro hc
    simp at hc

theorem only_stderr_effect_witness :
    (∀ a ∈ ([pureArg "5"] : List (Eff Unit String)), ∀ s, (a s).2 = s)
      ∧ ((test_log true "x" [pureArg "5"] (World.mk () [] [])).stdout
            = (World.mk () [] [] : World Unit).stdout
          ∧ (test_log true "x" [pureArg "5"] (World.mk () [] [])).env
            = (World.mk () [] [] : World Unit).env
          ∧ (true = false → test_log true "x" [pureArg "5"] (World.mk () [] [])
              = World.mk () [] [])
          ∧ ((test_log true "x" [pureArg "5"] (World.mk () [] [])).stderr
              = (World.mk () [] [] : World Unit).stderr ∨ true = true)) :=
  ⟨by decide,
   only_stderr_effect Unit true "x" [pureArg "5"] (World.mk () [] []) (by decide)⟩

/-- C6: the build-mode flag is a fixed parameter of the compilation unit, not
part of the mutable state, so every `test_log!` call site of a program run
observes the identical value. -/
theorem flag_fixed_per_unit :
    ∀ (σ : Type) (cfgTest : Bool) (p : List (Stmt σ)) (b : Bool),
      b ∈ observedFlags cfgTest p → b = cfgTest := by
  intro σ cfgTest p
  induction p with
  | nil => intro b hb; cases hb
  | cons s p ih =>
    intro b hb
    cases s with
    | log t args =>
      rcases List.mem_cons.mp hb with h | h
      · exact h
      · exact ih b h
    | other f => exact ih b hb

theorem flag_fixed_per_unit_witness :
    (true ∈ observedFlags true ([Stmt.log "x" [], Stmt.other id] : List (Stmt Unit)))
      ∧ true = true :=
  ⟨by simp [observedFlags],
   flag_fixed_per_unit Unit true [Stmt.log "x" [], Stmt.other id] true
     (by simp [observedFlags])⟩

theorem runTrace_fail_last {σ : Type} (cfgTest : Bool) (p : List (TStmt σ)) :
    ∀ (s : σ) (i : Nat) (m : String),
      (runTrace cfgTest p s).get? i = some (Event.fail m) →
      (runTrace cfgTest p s).length = i + 1 := by
  induction p with
  | nil => intro s i m h; simp [runTrace] at h
  | cons st p ih =>
    intro s i m h
    cases st with
    | log t args =>
      cases cfgTest with
      | false =>
        simpa [runTrace] using ih s i m (by simpa [runTrace] using h)
      | true =>
        cases i with
        | zero => simp [runTrace] at h
        | succ i =>
          have := ih (evalArgs args s).2 i m (by simpa [runTrace] using h)
          simpa [runTrace] using this
    | fail m2 =>
      cases i with
      | zero => simp [runTrace]
      | succ i => simp [runTrace] at h

/-- C7: in the crate's failing test, every stderr line emitted by `test_log!`
occurs strictly before the failure event in the run's trace: emission first,
failure second. -/
theorem emission_before_failure :
    ∀ (σ : Type) (s : σ) (i j : Nat) (line : List Char) (msg : String),
      (runTrace true failingTestBody s).get? i = some (Event.emit line) →
      (runTrace true failingTestBody s).get? j = some (Event.fail msg) →
      i < j := by
  intro σ s i j line msg hi hj
  have hlen := runTrace_fail_last true failingTestBody s j msg hj
  have hilt : i < (runTrace true failingTestBody s).length := by
    exact List.get?_eq_some.mp hi |>.1
  have hne : i ≠ j := by
    intro h
    rw [h, hj] at hi
    simp at hi
  omega

theorem emission_before_failure_witness :
    (runTrace true (failingTestBody (σ := Unit)) ()).get? 0
        = some (Event.emit ("This debug message appears before the test fails").data)
      ∧ (runTrace true (failingTestBody (σ := Unit)) ()).get? 3
        = some (Event.fail "Intentional panic to show test_log output")
      ∧ (0 : Nat) < 3 :=
  ⟨by decide, by decide,
   emission_before_failure Unit () 0 3
     ("This debug message appears before the test fails").data
     "Intentional panic to show test_log output" (by decide) (by decide)⟩

/-- C8: the construct is deterministic. The characters an invocation appends
to standard error depend only on the build mode, the template and the
argument values (the ambient state feeding the arguments), and something is
emitted exactly when the build mode is test. -/
theorem deterministic_emission :
    ∀ (σ : Type) (cfgTest : Bool) (t : String) (args : List (Eff σ String))
      (w1 w2 : World σ), w1.env = w2.env →
      emitted cfgTest t args w1 = emitted cfgTest t args w2
        ∧ (emitted cfgTest t args w1 ≠ [] ↔ cfgTest = true) := by
  intro σ cfgTest t args w1 w2 h
  cases cfgTest with
  | false => simp [emitted_false]
  | true => simp [emitted_true, h]

theorem deterministic_emission_witness :
    (World.mk () [] ['a'] : World Unit).env = (World.mk () ['b'] [] : World Unit).env
      ∧ (emitted true "hi" [] (World.mk () [] ['a'] : World Unit)
            = emitted true "hi" [] (World.mk () ['b'] [] : World Unit)
          ∧ (emitted true "hi" [] (World.mk () [] ['a'] : World Unit) ≠ []
              ↔ true = true)) :=
  ⟨rfl,
   deterministic_emission Unit true "hi" [] (World.mk () [] ['a'])
     (World.mk () ['b'] []) rfl⟩

/-- C9: in a non-test build the branch body never runs, so the argument
expressions are never evaluated and none of their side effects occur; in
particular a counting side effect in an argument leaves the state unchanged.
-/
theorem args_not_evaluated_when_disabled :
    ∀ (σ : Type) (t : String) (args : List (Eff σ String)) (w : World σ),
      (test_log false t args w).env = w.env
        ∧ test_log false "\x7b\x7d" [fun n => (toString n, n + 1)]
            (World.mk (0 : Nat) [] []) = World.mk 0 [] [] := by
  intro σ t args w
  exact ⟨rfl, rfl⟩

theorem evalArgs_mkTraced :
    ∀ (vs : List String) (k : Nat) (s : List Nat),
      evalArgs (mkTraced vs k) s = (vs, s ++ List.range' k vs.length) := by
  intro vs
  induction vs with
  | nil => intro k s; simp [mkTraced, evalArgs, List.range']
  | cons v vs ih =>
    intro k s
    simp [mkTraced, evalArgs, ih (k + 1) (s ++ [k]), List.range']

theorem formatCore_cons_nobrace (c : Char) (h1 : c ≠ '\x7b') (h2 : c ≠ '\x7d')
    (l : List Char) (args : List String) :
    formatCore (c :: l) args = c :: formatCore l args := by
  cases l with
  | nil => simp [formatCore]
  | cons d l => simp [formatCore, h1, h2]

theorem formatCore_append_nobrace (s l : List Char) (args : List String)
    (h : ∀ c ∈ s, c ≠ '\x7b' ∧ c ≠ '\x7d') :
    formatCore (s ++ l) args = s ++ formatCore l args := by
  induction s with
  | nil => simp
  | cons c s ih =>
    have hc := h c (List.mem_cons_self _ _)
    rw [List.cons_append, formatCore_cons_nobrace c hc.1 hc.2,
      ih (fun d hd => h d (List.mem_cons_of_mem _ hd)), List.cons_append]

theorem formatCore_placeholder (l : List Char) (a : String) (as : List String) :
    formatCore ('\x7b' :: '\x7d' :: l) (a :: as) = a.data ++ formatCore l as := by
  have e1 : ((('\x7d' : Char) = '\x7b') = False) := eq_false (by decide)
  have e2 : ((('\x7b' : Char) = '\x7d') = False) := eq_false (by decide)
  simp only [formatCore, eq_self_iff_true, true_and, and_true, e1, e2,
    if_true, if_false]

theorem interleave_spec :
    ∀ (vs : List String) (segs : List (List Char)),
      segs.length = vs.length + 1 →
      (∀ s ∈ segs, ∀ c ∈ s, c ≠ '\x7b' ∧ c ≠ '\x7d') →
      formatCore (buildTemplate segs) vs = interleave segs vs := by
  intro vs
  induction vs with
  | nil =>
    intro segs hlen hnb
    match segs, hlen with
    | [s], _ =>
      have := formatCore_append_nobrace s [] [] (hnb s (List.mem_cons_self _ _))
      simpa [buildTemplate, interleave, formatCore] using this
  | cons v vs ih =>
    intro segs hlen hnb
    match segs, hlen with
    | s :: t :: ss, hlen =>
      have hlen2 : (t :: ss).length = vs.length + 1 := by
        simpa using hlen
      have hb : buildTemplate (s :: t :: ss)
          = s ++ '\x7b' :: '\x7d' :: buildTemplate (t :: ss) := rfl
      rw [hb, formatCore_append_nobrace s _ _ (hnb s (List.mem_cons_self _ _)),
        formatCore_placeholder,
        ih (t :: ss) hlen2 (fun u hu => hnb u (List.mem_cons_of_mem _ hu))]
      simp [interleave]

/-- C10: in a test build the argument expressions are evaluated exactly once
each, in left-to-right order (the event log gains exactly the index list
0, 1, ... in order), and the emitted line carries each value exactly where
its placeholder stands between the literal segments of the template. -/
theorem args_evaluated_once_in_order :
    ∀ (vs : List String) (segs : List (List Char)) (w : World (List Nat)),
      segs.length = vs.length + 1 →
      (∀ s ∈ segs, ∀ c ∈ s, c ≠ '\x7b' ∧ c ≠ '\x7d') →
      (test_log true (String.mk (buildTemplate segs)) (mkTraced vs 0) w).env
          = w.env ++ List.range vs.length
        ∧ (test_log true (String.mk (buildTemplate segs)) (mkTraced vs 0) w).stderr
          = w.stderr ++ interleave segs vs ++ ['\n'] := by
  intro vs segs w hlen hnb
  have he := evalArgs_mkTraced vs 0 w.env
  constructor
  · rw [test_log_true]
    simp [he, List.range_eq_range']
  · rw [test_log_true]
    simp only [he, formatTemplate]
    rw [interleave_spec vs segs hlen hnb]

theorem args_evaluated_once_in_order_witness :
    (([("Debug info: ").data, ([] : List Char)] : List (List Char)).length
        = (["5"] : List String).length + 1)
      ∧ (∀ s ∈ ([("Debug info: ").data, ([] : List Char)] : List (List Char)),
          ∀ c ∈ s, c ≠ '\x7b' ∧ c ≠ '\x7d')
      ∧ ((test_log true (String.mk (buildTemplate [("Debug info: ").data, []]))
            (mkTraced ["5"] 0) (World.mk [] [] [])).env
            = ([] : List Nat) ++ List.range 1
          ∧ (test_log true (String.mk (buildTemplate [("Debug info: ").data, []]))
              (mkTraced ["5"] 0) (World.mk [] [] [])).stderr
            = [] ++ interleave [("Debug info: ").data, []] ["5"] ++ ['\n']) :=
  ⟨by decide, by decide,
   args_evaluated_once_in_order ["5"] [("Debug info: ").data, []]
     (World.mk [] [] []) (by decide) (by decide)⟩

end Testlog
